import Mathlib

/-!
Verification of the audio synthesis-and-assembly subsystem of AutoScribe-AI
(`content_generation/audio_gen.py`, `content_generation/tts_backends.py`,
`content_generation/intro_outro.py`).

The Python code is shallowly embedded: Python strings become `List Char`,
the file system becomes an association list from paths to `FileInfo`,
synthesis backends become outcome oracles, and functions that raise become
`Except`-valued functions.  Every definition mirrors the control flow of the
corresponding Python function; doc comments name the Python source symbol.
-/

/-! ## Python string primitives over `List Char` -/

/-- Whitespace characters stripped by Python `str.strip()` and matched by the
regex class `\s`. -/
def pyWs (c : Char) : Bool :=
  c = ' ' || c = '\t' || c = '\n' || c = '\r' || c = '\x0b' || c = '\x0c'

/-- Python `str.strip()`: drop leading and trailing whitespace. -/
def trimL (s : List Char) : List Char :=
  ((s.dropWhile pyWs).reverse.dropWhile pyWs).reverse

/-- Python `str.lower()` (the source only lowercases ASCII identifiers). -/
def toLowerL (s : List Char) : List Char :=
  s.map Char.toLower

/-- Python `line.split(":", 1)`: the text before the first colon, and the text
after it when a colon is present. -/
def splitFirstColon : List Char → List Char × Option (List Char)
  | [] => ([], none)
  | c :: t =>
    if c = ':' then ([], some t)
    else
      let r := splitFirstColon t
      (c :: r.1, r.2)

/-- Python substring containment `sub in s`. -/
def containsSubB (sub : List Char) : List Char → Bool
  | [] => sub.isPrefixOf ([] : List Char)
  | c :: t => sub.isPrefixOf (c :: t) || containsSubB sub t

/-- Fueled worker for Python `str.replace`: scan left to right, replacing each
non-overlapping occurrence of `old` by `new`.  The fuel is an upper bound on
the number of scan steps; `replaceL` supplies the list length. -/
def replaceGo (old new : List Char) : Nat → List Char → List Char
  | _, [] => []
  | 0, s => s
  | fuel + 1, c :: t =>
    if old.isPrefixOf (c :: t) then new ++ replaceGo old new fuel (t.drop (old.length - 1))
    else c :: replaceGo old new fuel t

/-- Python `s.replace(old, new)` for non-empty `old` (the source never replaces
an empty pattern). -/
def replaceL (old new s : List Char) : List Char :=
  if old = [] then s else replaceGo old new s.length s

/-- Fueled worker for Python `str.split(sep)` with a non-empty separator. -/
def splitSubGo (sep : List Char) : Nat → List Char → List (List Char)
  | _, [] => [[]]
  | 0, s => [s]
  | fuel + 1, c :: t =>
    if sep.isPrefixOf (c :: t) then [] :: splitSubGo sep fuel (t.drop (sep.length - 1))
    else
      match splitSubGo sep fuel t with
      | [] => [[c]]
      | a :: rest => (c :: a) :: rest

/-- Python `s.split(sep)` for a non-empty separator `sep`. -/
def splitOnSubL (sep s : List Char) : List (List Char) :=
  if sep = [] then [s] else splitSubGo sep s.length s

/-- Python string `<` comparison (lexicographic by code point). -/
def strLtB : List Char → List Char → Bool
  | [], [] => false
  | [], _ :: _ => true
  | _ :: _, [] => false
  | a :: as, b :: bs =>
    if a.toNat < b.toNat then true
    else if b.toNat < a.toNat then false
    else strLtB as bs

/-- Non-strict companion of `strLtB`, used as the sorting relation. -/
def strLeB (a b : List Char) : Bool := !(strLtB b a)

/-- Python `sorted` on a list of strings. -/
def sortNames (l : List (List Char)) : List (List Char) :=
  List.insertionSort (fun a b => strLeB a b = true) l

/-- Python `os.path.basename`: the part of the path after the last slash. -/
def basenameL (p : List Char) : List Char :=
  (p.reverse.takeWhile (fun c => c ≠ '/')).reverse

/-- Python `os.path.join(d, f)` for a directory path without trailing slash. -/
def pathJoin (d f : List Char) : List Char := d ++ '/' :: f

/-! ## Decimal rendering (Python `"%d" % n`) -/

/-- Little-endian decimal digits of `n`, with fuel (the fuel `n + 1` always
suffices). -/
def decDigitsGo : Nat → Nat → List Nat
  | 0, _ => []
  | fuel + 1, n => if n < 10 then [n] else n % 10 :: decDigitsGo fuel (n / 10)

/-- Little-endian decimal digits of `n`. -/
def decDigits (n : Nat) : List Nat := decDigitsGo (n + 1) n

/-- Value of a little-endian digit list. -/
def undigits : List Nat → Nat
  | [] => 0
  | d :: ds => d + 10 * undigits ds

/-- Python `"%d" % n`: most-significant-first decimal digit characters. -/
def decChars (n : Nat) : List Char :=
  (decDigits n).reverse.map Nat.digitChar

/-- Numeric value of a decimal digit character. -/
def digitVal (c : Char) : Nat := c.toNat - 48

theorem undigits_decDigitsGo (fuel : Nat) :
    ∀ n, n + 1 ≤ fuel → undigits (decDigitsGo fuel n) = n := by
  induction fuel with
  | zero => intro n h; omega
  | succ f ih =>
    intro n _
    by_cases h10 : n < 10
    · simp [decDigitsGo, h10, undigits]
    · have hn : 0 < n := by omega
      have hdiv : n / 10 < n := Nat.div_lt_self hn (by omega)
      simp only [decDigitsGo, h10, if_false, undigits]
      rw [ih (n / 10) (by omega)]
      omega

theorem undigits_decDigits (n : Nat) : undigits (decDigits n) = n :=
  undigits_decDigitsGo (n + 1) n (Nat.le_refl _)

theorem decDigitsGo_lt_ten (fuel : Nat) :
    ∀ n d, d ∈ decDigitsGo fuel n → d < 10 := by
  induction fuel with
  | zero => intro n d h; simp [decDigitsGo] at h
  | succ f ih =>
    intro n d h
    by_cases h10 : n < 10
    · simp [decDigitsGo, h10] at h; omega
    · simp only [decDigitsGo, h10, if_false, List.mem_cons] at h
      rcases h with h | h
      · omega
      · exact ih _ _ h

theorem digitVal_digitChar (d : Nat) (h : d < 10) :
    digitVal (Nat.digitChar d) = d := by
  interval_cases d <;> decide

theorem decChars_injective (m n : Nat) (h : decChars m = decChars n) : m = n := by
  have key : ∀ k, ((decChars k).map digitVal).reverse = decDigits k := by
    intro k
    show (List.map digitVal (((decDigits k).reverse).map Nat.digitChar)).reverse = decDigits k
    rw [List.map_map]
    have hcongr : ∀ d ∈ (decDigits k).reverse, (digitVal ∘ Nat.digitChar) d = id d := by
      intro d hd
      exact digitVal_digitChar d (decDigitsGo_lt_ten (k + 1) k d (List.mem_reverse.mp hd))
    rw [List.map_congr_left hcongr, List.map_id, List.reverse_reverse]
  have h2 : decDigits m = decDigits n := by rw [← key m, ← key n, h]
  calc m = undigits (decDigits m) := (undigits_decDigits m).symm
    _ = undigits (decDigits n) := by rw [h2]
    _ = n := undigits_decDigits n

/-! ## audio_gen.py : helpers -/

/-- Characters kept by the regex `[^a-z0-9\- _.]` deletion in
`_sanitize_filename`. -/
def allowedChar (c : Char) : Bool :=
  ('a' ≤ c && c ≤ 'z') || ('0' ≤ c && c ≤ '9') || c = '-' || c = ' ' || c = '_' || c = '.'

/-- Worker for the regex substitution `re.sub(r"\s+", " ", text)`: collapse
every maximal whitespace run to a single space. -/
def collapseWs : List Char → List Char
  | [] => []
  | [c] => if pyWs c then [' '] else [c]
  | c :: d :: t =>
    if pyWs c && pyWs d then collapseWs (d :: t)
    else (if pyWs c then ' ' else c) :: collapseWs (d :: t)

/-- Python `_sanitize_filename` from `audio_gen.py`: strip, lowercase, collapse
whitespace, `/`→`-`, delete disallowed characters, spaces→underscores,
truncate to 80 characters. -/
def sanitizeFilename (text : List Char) : List Char :=
  let t := toLowerL (trimL text)
  let t := collapseWs t
  let t := t.map (fun c => if c = '/' then '-' else c)
  let t := t.filter allowedChar
  let t := t.map (fun c => if c = ' ' then '_' else c)
  t.take 80

/-- Python slice `l[start::step]` over the characters of a string. -/
def pySliceStep (l : List Char) (start step : Nat) : List Char :=
  ((List.range l.length).filter (fun i => start ≤ i && (i - start) % step == 0)).filterMap
    (fun i => l.get? i)

/-- Suffix part of `_ordinal` in `audio_gen.py`:
`"tsnrhtdd"[(n // 10 % 10 != 1) * (n % 10 < 4) * n % 10 :: 4]`
(Python booleans multiply as 0/1). -/
def ordinalSuffix (n : Nat) : List Char :=
  pySliceStep "tsnrhtdd".data
    (((if n / 10 % 10 ≠ 1 then 1 else 0) * (if n % 10 < 4 then 1 else 0) * n) % 10) 4

/-- Python `_ordinal(n)` from `audio_gen.py`: `"%d%s" % (n, suffix)`. -/
def pyOrdinal (n : Nat) : List Char := decChars n ++ ordinalSuffix n

theorem ordinalSuffix_length (n : Nat) : (ordinalSuffix n).length = 2 := by
  unfold ordinalSuffix
  by_cases h4 : n % 10 < 4
  · by_cases h1 : n / 10 % 10 ≠ 1
    · rw [if_pos h1, if_pos h4]
      have hmod : 1 * 1 * n % 10 = n % 10 := by omega
      rw [hmod]
      generalize hk : n % 10 = m at h4
      interval_cases m <;> decide
    · rw [if_neg h1, if_pos h4]
      have hmod : 0 * 1 * n % 10 = 0 := by omega
      rw [hmod]; decide
  · by_cases h1 : n / 10 % 10 ≠ 1
    · rw [if_pos h1, if_neg h4]
      have hmod : 1 * 0 * n % 10 = 0 := by omega
      rw [hmod]; decide
    · rw [if_neg h1, if_neg h4]
      have hmod : 0 * 0 * n % 10 = 0 := by omega
      rw [hmod]; decide

theorem pyOrdinal_injective (m n : Nat) (h : pyOrdinal m = pyOrdinal n) : m = n := by
  unfold pyOrdinal at h
  have hlen : (ordinalSuffix m).length = (ordinalSuffix n).length := by
    rw [ordinalSuffix_length, ordinalSuffix_length]
  exact decChars_injective m n (List.append_inj' h hlen).1

/-! ## audio_gen.py : file-system model and `_is_valid_mp3` -/

/-- Observable attributes of a file on disk: its byte size and whether the
audio library's decode probe (`AudioSegment.from_file`) succeeds on it. -/
structure FileInfo where
  size : Nat
  decodable : Bool
deriving DecidableEq

/-- The file system: an association list from paths to file attributes, most
recent write first. -/
abbrev FS := List (List Char × FileInfo)

/-- Look up a path in the file-system model (`os.path.exists` +
`os.path.getsize` + decode probe observations). -/
def fsFind : FS → List Char → Option FileInfo
  | [], _ => none
  | (q, f) :: t, p => if q = p then some f else fsFind t p

/-- Python `_is_valid_mp3(path)` from `audio_gen.py`, parameterized by
`pydubAvail` (`_PYDUB_AVAILABLE`) and the file system: returns `False` when the
file is missing or smaller than 1024 bytes, probes a decode when the library is
available (an exception yields `False`), and returns `True` otherwise. -/
def isValidMp3 (pydubAvail : Bool) (fs : FS) (path : List Char) : Bool :=
  match fsFind fs path with
  | none => false
  | some fi =>
    if fi.size < 1024 then false
    else if pydubAvail then fi.decodable
    else true

/-- A synthesized file that passes validation: large enough and decodable
whenever the audio library would probe it. -/
def goodFileB (pydubAvail : Bool) (f : FileInfo) : Bool :=
  (1024 ≤ f.size) && (!pydubAvail || f.decodable)

theorem isValidMp3_eq_goodFileB (pydubAvail : Bool) (fs : FS) (p : List Char)
    (f : FileInfo) (h : fsFind fs p = some f) :
    isValidMp3 pydubAvail fs p = goodFileB pydubAvail f := by
  unfold isValidMp3 goodFileB
  rw [h]
  by_cases hs : f.size < 1024
  · simp [hs, Nat.not_le.mpr hs]
  · cases pydubAvail <;> cases hd : f.decodable <;> simp [hs, Nat.le_of_not_lt hs, hd]

/-- C4: artifact validation is the pure predicate "file present, at least 1024
bytes, and decodable whenever the audio library is available"; a file below
the size threshold is invalid no matter what its path or extension is, and
validation is idempotent (re-checking returns the same result and touches no
state, the embedding being a pure function of the file system). -/
theorem claim_C4_artifact_validation :
    (∀ (pydubAvail : Bool) (fs : FS) (p : List Char),
      isValidMp3 pydubAvail fs p = true ↔
        ∃ f, fsFind fs p = some f ∧ 1024 ≤ f.size ∧
          (pydubAvail = true → f.decodable = true)) ∧
    (∀ (pydubAvail : Bool) (fs : FS) (p : List Char) (f : FileInfo),
      fsFind fs p = some f → f.size < 1024 → isValidMp3 pydubAvail fs p = false) ∧
    (∀ (pydubAvail : Bool) (fs : FS) (p : List Char),
      (isValidMp3 pydubAvail fs p && isValidMp3 pydubAvail fs p)
        = isValidMp3 pydubAvail fs p) := by
  refine ⟨?_, ?_, ?_⟩
  · intro pydubAvail fs p
    constructor
    · intro h
      match hf : fsFind fs p with
      | none => rw [isValidMp3, hf] at h; exact absurd h (by simp)
      | some f =>
        refine ⟨f, rfl, ?_, ?_⟩
        · rw [isValidMp3_eq_goodFileB pydubAvail fs p f hf, goodFileB] at h
          exact of_decide_eq_true (Bool.and_elim_left h)
        · intro hp
          rw [isValidMp3_eq_goodFileB pydubAvail fs p f hf, goodFileB, hp] at h
          simpa using Bool.and_elim_right h
    · rintro ⟨f, hf, hsize, hdec⟩
      rw [isValidMp3_eq_goodFileB pydubAvail fs p f hf, goodFileB]
      cases pydubAvail
      · simp [hsize]
      · simp [hsize, hdec rfl]
  · intro pydubAvail fs p f hf hsize
    rw [isValidMp3, hf]
    simp [hsize]
  · intro pydubAvail fs p
    exact Bool.and_self _

/-- Witness for C4 at a concrete file system: a 10-byte file is invalid
whatever its name, and a 2048-byte decodable file validates. -/
theorem claim_C4_artifact_validation_witness :
    isValidMp3 true [("a/small.mp3".data, ⟨10, true⟩)] "a/small.mp3".data = false ∧
    isValidMp3 true [("a/big.mp3".data, ⟨2048, true⟩)] "a/big.mp3".data = true :=
  ⟨claim_C4_artifact_validation.2.1 true _ "a/small.mp3".data ⟨10, true⟩ (by decide)
      (by decide),
    (claim_C4_artifact_validation.1 true _ "a/big.mp3".data).mpr
      ⟨⟨2048, true⟩, by decide, by decide, fun _ => rfl⟩⟩

/-! ## audio_gen.py : per-line speaker derivation and text cleaning -/

/-- The recognition chain of speaker derivation in `create_dialogue_audio`:
the normalized candidate is matched against the recognized set (`rick`,
`morty`, `djcara`/`dj cara`/`cara`); no match yields `none`. -/
def recognizeSpeaker (p : List Char) : Option (List Char) :=
  if p = "rick".data then some "rick".data
  else if p = "morty".data then some "morty".data
  else if p = "djcara".data ∨ p = "dj cara".data ∨ p = "cara".data then some "djcara".data
  else none

/-- The speaker of one line: the normalized text before the first colon (the
empty string when the line has no colon, exactly as the Python conditional
expression yields `""`) matched by `recognizeSpeaker`. -/
def speakerOf (line : List Char) : Option (List Char) :=
  recognizeSpeaker (if line.contains ':' then toLowerL (trimL (splitFirstColon line).1) else [])

/-- The label used for logging and file naming: `speaker or "speaker"`. -/
def characterOf (line : List Char) : List Char :=
  (speakerOf line).getD "speaker".data

/-- Line cleaning in `create_dialogue_audio`: the five exact-case prefix
strings are replaced away, and for the `rick` speaker the text is split on
`*burp*` and re-joined with single spaces. -/
def cleanOf (line : List Char) (speaker : Option (List Char)) : List Char :=
  let c := replaceL "Cara: ".data [] (replaceL "DJ Cara: ".data []
    (replaceL "DJCARA: ".data [] (replaceL "Morty: ".data []
      (replaceL "Rick: ".data [] line))))
  if speaker = some "rick".data then
    List.intercalate " ".data (splitOnSubL "*burp*".data c)
  else c

/-- Per-line file name `f"{character}_line_{i}.mp3"`. -/
def lineFileName (character : List Char) (i : Nat) : List Char :=
  character ++ "_line_".data ++ decChars i ++ ".mp3".data

/-- Outcome of one synthesis call: either a file is written at the destination
path (with the given attributes) or an exception is raised. -/
inductive SynthOutcome where
  | ok (f : FileInfo)
  | exc
deriving DecidableEq

/-- One iteration of the loop in `create_dialogue_audio` for line `line` at
index `i`: derive the speaker, clean the text, try the server backend (absent
when `force_gtts` or no server is configured; an exception leaves `wrote`
false), validate, fall back to gTTS on a missing or invalid artifact, validate
again, and either skip the line or contribute its file path.  The synthesis
calls are abstracted by oracles mapping the cleaned text to an outcome; voice
and tuning parameters do not affect any modeled observable. -/
def processLine (pydubAvail : Bool) (backend : Option (List Char → SynthOutcome))
    (gtts : List Char → SynthOutcome) (outputDir : List Char) (i : Nat)
    (line : List Char) (fs : FS) : FS × Option (List Char) :=
  let speaker := speakerOf line
  let cleanLine := cleanOf line speaker
  let character := speaker.getD "speaker".data
  let filepath := pathJoin outputDir (lineFileName character i)
  let step1 : FS × Bool :=
    match backend with
    | none => (fs, false)
    | some o =>
      match o cleanLine with
      | .ok f => ((filepath, f) :: fs, true)
      | .exc => (fs, false)
  let step2 : FS × Bool :=
    if !step1.2 || !(isValidMp3 pydubAvail step1.1 filepath) then
      match gtts cleanLine with
      | .ok f => ((filepath, f) :: step1.1, true)
      | .exc => (step1.1, false)
    else step1
  if !step2.2 || !(isValidMp3 pydubAvail step2.1 filepath) then (step2.1, none)
  else (step2.1, some filepath)

/-- Worker for `create_dialogue_audio`: fold `processLine` over the enumerated
dialogue, collecting the paths of the successfully synthesized lines in input
order. -/
def createDialogueAudioGo (pydubAvail : Bool) (backend : Option (List Char → SynthOutcome))
    (gtts : List Char → SynthOutcome) (outputDir : List Char) :
    Nat → List (List Char) → FS → FS × List (List Char)
  | _, [], fs => (fs, [])
  | i, line :: rest, fs =>
    let r := processLine pydubAvail backend gtts outputDir i line fs
    let rr := createDialogueAudioGo pydubAvail backend gtts outputDir (i + 1) rest r.1
    match r.2 with
    | none => rr
    | some p => (rr.1, p :: rr.2)

/-- Python `create_dialogue_audio(dialogue, output_dir, ...)` from
`audio_gen.py`.  `backend = none` models both `force_gtts=True` and an
unconfigured server (`get_tts_backend()` returning `None`). -/
def createDialogueAudio (pydubAvail : Bool) (backend : Option (List Char → SynthOutcome))
    (gtts : List Char → SynthOutcome) (dialogue : List (List Char))
    (outputDir : List Char) (fs : FS) : FS × List (List Char) :=
  createDialogueAudioGo pydubAvail backend gtts outputDir 0 dialogue fs

/-! ## audio_gen.py : grouping by speaker -/

/-- Python `groups.setdefault(key, []).append(fp)` on an insertion-ordered
dict represented as an association list. -/
def dictAppend (gs : List (List Char × List (List Char))) (k v : List Char) :
    List (List Char × List (List Char)) :=
  match gs with
  | [] => [(k, [v])]
  | (k', vs) :: t => if k' = k then (k', vs ++ [v]) :: t else (k', vs) :: dictAppend t k v

/-- The bucket key for unrecognized files: `(default_speaker or "speaker").lower()`. -/
def defaultKeyOf (defaultSpeaker : Option (List Char)) : List Char :=
  toLowerL (match defaultSpeaker with
    | none => "speaker".data
    | some s => if s = [] then "speaker".data else s)

/-- The group key assigned to one file by `_group_line_files_by_speaker`:
`rick` and `morty` by basename prefix, everything else to the default
bucket. -/
def speakerKeyOf (defaultSpeaker : Option (List Char)) (fp : List Char) : List Char :=
  let base := basenameL fp
  if "rick_".data.isPrefixOf base then "rick".data
  else if "morty_".data.isPrefixOf base then "morty".data
  else defaultKeyOf defaultSpeaker

/-- Python `_group_line_files_by_speaker(files, default_speaker)` from
`audio_gen.py`: bucket files by speaker key in first-seen key order, then sort
each bucket with Python `sorted` (lexicographic on the file name). -/
def groupLineFilesBySpeaker (files : List (List Char))
    (defaultSpeaker : Option (List Char)) : List (List Char × List (List Char)) :=
  let gs := files.foldl (fun gs fp => dictAppend gs (speakerKeyOf defaultSpeaker fp) fp) []
  gs.map (fun kv => (kv.1, sortNames kv.2))

/-! ## audio_gen.py : combining and rendering -/

/-- Python `_combine_mp3s(file_list, output_path)` from `audio_gen.py`: raises
`ValueError("No files to combine")` on an empty list, otherwise concatenates
the inputs in list order into the output artifact (both the pydub path and the
ffmpeg concat path preserve list order); the result records the output path
and the ordered parts. -/
def combineMp3s (fileList : List (List Char)) (outputPath : List Char) :
    Except (List Char) (List Char × List (List Char)) :=
  if fileList = [] then .error "No files to combine".data
  else .ok (outputPath, fileList)

/-- The file filter of `next_ordinal_for` in `render_combined_audio` (and of
the inline single-track scan): name starts with `f"{label}_"`, contains
`f"_{date_token}"`, and ends with `".mp3"`. -/
def matchesOrdinalScan (label dateToken p : List Char) : Bool :=
  (label ++ "_".data).isPrefixOf p && containsSubB ("_".data ++ dateToken) p &&
    ".mp3".data.isSuffixOf p

/-- The ordinal number chosen by `next_ordinal_for`: the count of matching
files in the output directory listing, plus one. -/
def nextOrdinalNum (listing : List (List Char)) (label dateToken : List Char) : Nat :=
  (listing.filter (fun p => matchesOrdinalScan label dateToken p)).length + 1

/-- Final artifact name `f"{label}_{safe_title}_{date_token}{ord_token}.mp3"`
with ordinal number `n`. -/
def finalName (label safeTitle dateToken : List Char) (n : Nat) : List Char :=
  label ++ '_' :: (safeTitle ++ '_' :: (dateToken ++ pyOrdinal n ++ ".mp3".data))

/-- The per-group output loop of the multi-track branch of
`render_combined_audio`: for each `(character, files)` group, compute the
ordinal from the current directory listing, combine the group's files into
`audio_dir/fname`, and record the written name in the listing seen by later
groups (as `os.listdir` would). -/
def renderGroups (dateToken safeTitle audioDir : List Char) :
    List (List Char) → List (List Char × List (List Char)) →
    Except (List Char) (List (List Char × List (List Char)))
  | _, [] => .ok []
  | listing, (character, files) :: rest =>
    let fname := finalName character safeTitle dateToken
      (nextOrdinalNum listing character dateToken)
    match combineMp3s files (pathJoin audioDir fname) with
    | .error e => .error e
    | .ok out =>
      match renderGroups dateToken safeTitle audioDir (fname :: listing) rest with
      | .error e => .error e
      | .ok outs => .ok (out :: outs)

/-- The multi-track path of `render_combined_audio(dialogue, title, audio_dir,
...)` from `audio_gen.py` (`single_track=False`): generate per-line files into
the `.tmp` subdirectory, re-run with forced gTTS when no line produced a valid
artifact, raise `RuntimeError` when there is still nothing, then group by
speaker and combine each group into a deterministically named artifact.
`gttsRetry` is the gTTS oracle of the forced second pass; `listing` is the
output directory contents (`os.listdir(audio_root)`); the returned pairs are
(final path, ordered per-line parts). -/
def renderCombinedMulti (pydubAvail : Bool) (backend : Option (List Char → SynthOutcome))
    (gtts gttsRetry : List Char → SynthOutcome) (dialogue : List (List Char))
    (title audioDir dateToken : List Char) (defaultSpeaker : Option (List Char))
    (listing : List (List Char)) (fs : FS) :
    Except (List Char) (List (List Char × List (List Char))) :=
  let safeTitle := sanitizeFilename title
  let tmp := audioDir ++ "/.tmp".data
  let firstPass := createDialogueAudio pydubAvail backend gtts dialogue tmp fs
  let secondPass :=
    if firstPass.2 = [] then
      createDialogueAudio pydubAvail none gttsRetry dialogue tmp firstPass.1
    else firstPass
  if secondPass.2 = [] then .error "TTS failed to produce any valid audio lines".data
  else
    renderGroups dateToken safeTitle audioDir listing
      (groupLineFilesBySpeaker secondPass.2 defaultSpeaker)

/-! ## tts_backends.py : ChatterboxTTSBackend -/

/-- One entry of the server's `/api/outputs` listing, as consumed by
`_latest_output` and `_download_output`. -/
structure OutputItem where
  filename : List Char
  url : Option (List Char)
  content : FileInfo
deriving DecidableEq

/-- The new-artifact test of the polling loop:
`latest and latest.get("filename") != before_name` (in Python a string never
equals `None`). -/
def isNewOutput (latest : Option OutputItem) (beforeName : Option (List Char)) : Bool :=
  match latest, beforeName with
  | none, _ => false
  | some _, none => true
  | some it, some b => it.filename ≠ b

/-- The polling loop of `ChatterboxTTSBackend.synthesize`: at each iteration
consult `_latest_output` (abstracted as the trace `poll` indexed by iteration),
stop with the first output whose filename differs from the pre-request
snapshot, or stop with no candidate once the configured poll timeout allows no
further iteration (`fuel` is the number of iterations the timeout admits). -/
def pollLoop (poll : Nat → Option OutputItem) (beforeName : Option (List Char)) :
    Nat → Nat → Option OutputItem
  | _, 0 => none
  | i, fuel + 1 =>
    match poll i with
    | some it =>
      if isNewOutput (some it) beforeName then some it
      else pollLoop poll beforeName (i + 1) fuel
    | none => pollLoop poll beforeName (i + 1) fuel

/-- Outcome of one `GET /outputs/<filename>` download attempt. -/
inductive DlOutcome where
  | ok (f : FileInfo)
  | netErr
deriving DecidableEq

/-- The bounded retry loop of `_download_output`: try download attempts in
order, writing the item's bytes to `outPath` on the first success. -/
def downloadAttempts (dl : Nat → DlOutcome) (it : OutputItem) (outPath : List Char)
    (fs : FS) : Nat → Nat → Except (List Char) (FS × List Char)
  | _, 0 => .error "Failed to download output".data
  | i, remaining + 1 =>
    match dl i with
    | .ok _ => .ok ((outPath, it.content) :: fs, outPath)
    | .netErr => downloadAttempts dl it outPath fs (i + 1) remaining

/-- Python `_download_output(item, out_path)` from `tts_backends.py`.  Passing
`item = None` (the timed-out polling loop's candidate) fails immediately —
`item.get("url")` raises `AttributeError` — before anything is written to
`out_path`.  With an item, attempts are retried on network errors up to
`attempts` tries (the bounded-retry configuration), writing `out_path` on the
first success. -/
def downloadOutput (dl : Nat → DlOutcome) (attempts : Nat) (item : Option OutputItem)
    (outPath : List Char) (fs : FS) : Except (List Char) (FS × List Char) :=
  match item with
  | none => .error "AttributeError: NoneType object has no attribute get".data
  | some it => downloadAttempts dl it outPath fs 0 attempts

/-- Outcome of the `POST /tts` submission in `ChatterboxTTSBackend.synthesize`:
either an HTTP response with a status code, or a `requests` network exception
raised during the call. -/
inductive PostOutcome where
  | httpResp (status : Nat)
  | netExc
deriving DecidableEq

/-- The poll-then-download phase of `ChatterboxTTSBackend.synthesize`
(everything after the submission block). -/
def pollDownloadPhase (poll : Nat → Option OutputItem) (beforeName : Option (List Char))
    (pollFuel : Nat) (dl : Nat → DlOutcome) (attempts : Nat) (outPath : List Char)
    (fs : FS) : Except (List Char) (FS × List Char) :=
  downloadOutput dl attempts (pollLoop poll beforeName 0 pollFuel) outPath fs

/-- Python `ChatterboxTTSBackend.synthesize` from `tts_backends.py`, given the
pre-request snapshot name `beforeName`: submit the request; a response with
status `>= 400` raises `RuntimeError` immediately, while a network exception
during submission is caught and the adapter proceeds to poll regardless; then
poll for a new output and download it to `outPath`. -/
def synthesizeModel (post : PostOutcome) (poll : Nat → Option OutputItem)
    (beforeName : Option (List Char)) (pollFuel : Nat) (dl : Nat → DlOutcome)
    (attempts : Nat) (outPath : List Char) (fs : FS) :
    Except (List Char) (FS × List Char) :=
  match post with
  | .httpResp status =>
    if 400 ≤ status then .error "Chatterbox TTS failed".data
    else pollDownloadPhase poll beforeName pollFuel dl attempts outPath fs
  | .netExc => pollDownloadPhase poll beforeName pollFuel dl attempts outPath fs

/-! ## intro_outro.py -/

/-- The recognized audio extensions of `_list_audio_files`. -/
def audioExts : List (List Char) :=
  [".mp3".data, ".wav".data, ".ogg".data, ".m4a".data, ".flac".data]

/-- The `Path.suffix` of a file path: the final extension of the last
component, including the dot; hidden files and extensionless names have no
suffix. -/
def extOf (p : List Char) : List Char :=
  let b := basenameL p
  let r := b.reverse.takeWhile (fun c => c ≠ '.')
  if r.length < b.length then
    if r.length + 1 = b.length then [] else '.' :: r.reverse
  else []

/-- Python `_list_audio_files(dir_path)` from `intro_outro.py` applied to the
directory's entries: keep files with a recognized audio extension
(case-insensitively) and sort them. -/
def listAudioFiles (entries : List (List Char)) : List (List Char) :=
  sortNames (entries.filter (fun f => audioExts.contains (toLowerL (extOf f))))

/-- Python `pick_intro_outro` from `intro_outro.py`, over the listings of the
resolved intro and outro directories and of the repo-local `intro_outros`
fallback directory (`none` when that directory does not exist): pick the first
audio file of each directory; when both are empty and the fallback exists, use
it for both, preferring files whose names contain `intro`/`outro`. -/
def pickIntroOutro (introEntries outroEntries : List (List Char))
    (guessEntries : Option (List (List Char))) :
    Option (List Char) × Option (List Char) :=
  let introFiles := listAudioFiles introEntries
  let outroFiles := listAudioFiles outroEntries
  if introFiles = [] ∧ outroFiles = [] then
    match guessEntries with
    | some g =>
      let gFiles := listAudioFiles g
      let introHint := gFiles.filter (fun f => containsSubB "intro".data (toLowerL (basenameL f)))
      let outroHint := gFiles.filter (fun f => containsSubB "outro".data (toLowerL (basenameL f)))
      ((introHint.head?).orElse (fun _ => gFiles.head?),
        (outroHint.head?).orElse (fun _ => gFiles.head?))
    | none => (none, none)
  else (introFiles.head?, outroFiles.head?)

/-- Output naming of `combine_with_intro_outro` with the default output file:
`main_path.with_name(main_path.stem + "_with_intro_outro.mp3")`. -/
def withIntroOutroName (fp : List Char) : List Char :=
  (fp.take (fp.length - (extOf fp).length)) ++ "_with_intro_outro.mp3".data

/-- Python `apply_intro_outro_to_files(files, ...)` from `intro_outro.py`:
scan for intro and outro assets; when neither is found, return the input list
unchanged (a no-op, not an error); otherwise combine each input with the found
assets (bridge synthesis and crossfade parameters do not affect the modeled
names). -/
def applyIntroOutroToFiles (introEntries outroEntries : List (List Char))
    (guessEntries : Option (List (List Char))) (files : List (List Char)) :
    Except (List Char) (List (List Char)) :=
  match pickIntroOutro introEntries outroEntries guessEntries with
  | (none, none) => .ok files
  | _ => .ok (files.map withIntroOutroName)

/-! ## Supporting lemmas for the backend adapter claims -/

theorem pollLoop_eq_none (poll : Nat → Option OutputItem) (beforeName : Option (List Char))
    (h : ∀ j, isNewOutput (poll j) beforeName = false) :
    ∀ fuel i, pollLoop poll beforeName i fuel = none := by
  intro fuel
  induction fuel with
  | zero => intro i; rfl
  | succ f ih =>
    intro i
    have hnew := h i
    cases hp : poll i with
    | none => simp [pollLoop, hp, ih (i + 1)]
    | some it =>
      rw [hp] at hnew
      simp [pollLoop, hp, hnew, ih (i + 1)]

/-- C7: in `ChatterboxTTSBackend.synthesize`, a submission response with
HTTP status `>= 400` raises immediately (independently of the polling and
download behavior), whereas a network exception during submission does not
abort: the adapter proceeds to the poll-then-download phase regardless, and in
particular still returns the downloaded artifact when polling finds one. -/
theorem claim_C7_submission_error_handling :
    (∀ (status : Nat) (poll : Nat → Option OutputItem) (beforeName : Option (List Char))
      (pollFuel : Nat) (dl : Nat → DlOutcome) (attempts : Nat) (outPath : List Char) (fs : FS),
      400 ≤ status →
      synthesizeModel (.httpResp status) poll beforeName pollFuel dl attempts outPath fs
        = .error "Chatterbox TTS failed".data) ∧
    (∀ (poll : Nat → Option OutputItem) (beforeName : Option (List Char))
      (pollFuel : Nat) (dl : Nat → DlOutcome) (attempts : Nat) (outPath : List Char) (fs : FS),
      synthesizeModel .netExc poll beforeName pollFuel dl attempts outPath fs
        = pollDownloadPhase poll beforeName pollFuel dl attempts outPath fs) ∧
    (∀ (poll : Nat → Option OutputItem) (beforeName : Option (List Char)) (it : OutputItem)
      (pollFuel : Nat) (dl : Nat → DlOutcome) (attempts : Nat) (outPath : List Char)
      (fs : FS) (f : FileInfo),
      poll 0 = some it → isNewOutput (some it) beforeName = true → dl 0 = .ok f →
      synthesizeModel .netExc poll beforeName (pollFuel + 1) dl (attempts + 1) outPath fs
        = .ok ((outPath, it.content) :: fs, outPath)) := by
  refine ⟨?_, ?_, ?_⟩
  · intro status poll beforeName pollFuel dl attempts outPath fs hs
    simp only [synthesizeModel]
    rw [if_pos hs]
  · intro poll beforeName pollFuel dl attempts outPath fs
    rfl
  · intro poll beforeName it pollFuel dl attempts outPath fs f hp hnew hdl
    simp [synthesizeModel, pollDownloadPhase, pollLoop, hp, hnew, downloadOutput,
      downloadAttempts, hdl]

/-- Witness for C7: a 404 submission response raises immediately; after a
network exception, a new artifact found on the first poll is downloaded. -/
theorem claim_C7_submission_error_handling_witness :
    synthesizeModel (.httpResp 404) (fun _ => none) none 3 (fun _ => .netErr) 2
      "out.wav".data [] = .error "Chatterbox TTS failed".data ∧
    synthesizeModel .netExc (fun _ => some ⟨"v_1.wav".data, none, ⟨2048, true⟩⟩) none
      3 (fun _ => .ok ⟨2048, true⟩) 2 "out.wav".data []
      = .ok ([("out.wav".data, ⟨2048, true⟩)], "out.wav".data) :=
  ⟨claim_C7_submission_error_handling.1 404 (fun _ => none) none 3 (fun _ => .netErr) 2
      "out.wav".data [] (by decide),
    claim_C7_submission_error_handling.2.2 (fun _ => some ⟨"v_1.wav".data, none, ⟨2048, true⟩⟩)
      none ⟨"v_1.wav".data, none, ⟨2048, true⟩⟩ 2 (fun _ => .ok ⟨2048, true⟩) 1
      "out.wav".data [] ⟨2048, true⟩ rfl (by decide) rfl⟩

/-- C9: when the configured poll timeout elapses without a new artifact (every
poll result fails the new-output test, so the candidate is still `None` when
the loop exits), `synthesize` never returns a path and never writes the
destination: it invokes the download step on the `None` candidate, which
raises (`AttributeError` on `item.get`) before any write to `out_path` — the
download-on-`None` error is returned for every submission outcome that reaches
the polling loop, and `downloadOutput` on `None` errors without consulting the
download oracle or producing a file system. -/
theorem claim_C9_poll_timeout_no_write :
    (∀ (poll : Nat → Option OutputItem) (beforeName : Option (List Char))
      (pollFuel : Nat) (dl : Nat → DlOutcome) (attempts : Nat) (outPath : List Char)
      (fs : FS) (status : Nat),
      (∀ j, isNewOutput (poll j) beforeName = false) → status < 400 →
      synthesizeModel (.httpResp status) poll beforeName pollFuel dl attempts outPath fs
        = .error "AttributeError: NoneType object has no attribute get".data ∧
      synthesizeModel .netExc poll beforeName pollFuel dl attempts outPath fs
        = .error "AttributeError: NoneType object has no attribute get".data) ∧
    (∀ (dl : Nat → DlOutcome) (attempts : Nat) (outPath : List Char) (fs : FS),
      downloadOutput dl attempts none outPath fs
        = .error "AttributeError: NoneType object has no attribute get".data) := by
  constructor
  · intro poll beforeName pollFuel dl attempts outPath fs status hnone hs
    have hploop := pollLoop_eq_none poll beforeName hnone pollFuel 0
    constructor
    · simp only [synthesizeModel]
      rw [if_neg (by omega)]
      simp only [pollDownloadPhase, hploop]
      rfl
    · simp only [synthesizeModel, pollDownloadPhase, hploop]
      rfl
  · intro dl attempts outPath fs
    rfl

/-- Witness for C9: with a stuck server (every poll returns the pre-request
snapshot's filename) and a capped timeout, a 200-status submission still ends
in the download-on-`None` error. -/
theorem claim_C9_poll_timeout_no_write_witness :
    synthesizeModel (.httpResp 200) (fun _ => some ⟨"old.wav".data, none, ⟨9, false⟩⟩)
      (some "old.wav".data) 5 (fun _ => .ok ⟨2048, true⟩) 3 "out.wav".data []
      = .error "AttributeError: NoneType object has no attribute get".data :=
  (claim_C9_poll_timeout_no_write.1 (fun _ => some ⟨"old.wav".data, none, ⟨9, false⟩⟩)
    (some "old.wav".data) 5 (fun _ => .ok ⟨2048, true⟩) 3 "out.wav".data [] 200
    (fun _ => rfl) (by decide)).1

/-- C8: when the directory scan finds neither an intro nor an outro asset,
`apply_intro_outro_to_files` returns exactly the input file list unchanged,
and the pass-through is a normal result, not an error; in particular empty
intro and outro directories (with no repo-local fallback directory) always
trigger the pass-through. -/
theorem claim_C8_intro_outro_noop :
    (∀ (introEntries outroEntries : List (List Char))
      (guessEntries : Option (List (List Char))) (files : List (List Char)),
      pickIntroOutro introEntries outroEntries guessEntries = (none, none) →
      applyIntroOutroToFiles introEntries outroEntries guessEntries files = .ok files) ∧
    (∀ files : List (List Char),
      applyIntroOutroToFiles [] [] none files = .ok files) := by
  constructor
  · intro introEntries outroEntries guessEntries files hpick
    unfold applyIntroOutroToFiles
    rw [hpick]
  · intro files
    rfl

/-- Witness for C8 at concrete input: empty directories pass a two-file list
through untouched. -/
theorem claim_C8_intro_outro_noop_witness :
    applyIntroOutroToFiles [] [] none ["a/x.mp3".data, "a/y.mp3".data]
      = .ok ["a/x.mp3".data, "a/y.mp3".data] :=
  claim_C8_intro_outro_noop.1 [] [] none ["a/x.mp3".data, "a/y.mp3".data] rfl

/-! ## Supporting lemmas for the batch-failure claim -/

theorem processLine_allFail (pydubAvail : Bool)
    (backend : Option (List Char → SynthOutcome)) (gtts : List Char → SynthOutcome)
    (outputDir : List Char) (i : Nat) (line : List Char) (fs : FS)
    (hb : ∀ o, backend = some o → ∀ t, o t = .exc)
    (hg : ∀ t, gtts t = .exc) :
    processLine pydubAvail backend gtts outputDir i line fs = (fs, none) := by
  unfold processLine
  cases backend with
  | none => simp [hg _]
  | some o => simp [hb o rfl _, hg _]

theorem createDialogueAudioGo_allFail (pydubAvail : Bool)
    (backend : Option (List Char → SynthOutcome)) (gtts : List Char → SynthOutcome)
    (outputDir : List Char)
    (hb : ∀ o, backend = some o → ∀ t, o t = .exc)
    (hg : ∀ t, gtts t = .exc) :
    ∀ (dialogue : List (List Char)) (i : Nat) (fs : FS),
      createDialogueAudioGo pydubAvail backend gtts outputDir i dialogue fs = (fs, []) := by
  intro dialogue
  induction dialogue with
  | nil => intro i fs; rfl
  | cons line rest ih =>
    intro i fs
    simp [createDialogueAudioGo,
      processLine_allFail pydubAvail backend gtts outputDir i line fs hb hg, ih (i + 1) fs]

/-- C6: `_combine_mp3s` raises `ValueError` on an empty artifact list, and the
multi-track renderer raises `RuntimeError` to its caller when every line of
the batch fails both the primary backend and the gTTS fallback, in the
initial pass as well as in the forced-gTTS retry pass — it never returns an
empty result. -/
theorem claim_C6_empty_input_rejection :
    (∀ outputPath : List Char,
      combineMp3s [] outputPath = .error "No files to combine".data) ∧
    (∀ (pydubAvail : Bool) (bo gtts gttsRetry : List Char → SynthOutcome)
      (dialogue : List (List Char)) (title audioDir dateToken : List Char)
      (defaultSpeaker : Option (List Char)) (listing : List (List Char)) (fs : FS),
      (∀ t, bo t = .exc) → (∀ t, gtts t = .exc) → (∀ t, gttsRetry t = .exc) →
      renderCombinedMulti pydubAvail (some bo) gtts gttsRetry dialogue title audioDir
        dateToken defaultSpeaker listing fs
        = .error "TTS failed to produce any valid audio lines".data) := by
  constructor
  · intro outputPath
    rfl
  · intro pydubAvail bo gtts gttsRetry dialogue title audioDir dateToken defaultSpeaker
      listing fs hbo hg hg2
    have h1 : createDialogueAudio pydubAvail (some bo) gtts dialogue
        (audioDir ++ "/.tmp".data) fs = (fs, []) :=
      createDialogueAudioGo_allFail pydubAvail (some bo) gtts (audioDir ++ "/.tmp".data)
        (fun o ho => by injection ho with h; rw [← h]; exact hbo) hg dialogue 0 fs
    have h2 : createDialogueAudio pydubAvail none gttsRetry dialogue
        (audioDir ++ "/.tmp".data) fs = (fs, []) :=
      createDialogueAudioGo_allFail pydubAvail none gttsRetry (audioDir ++ "/.tmp".data)
        (fun o ho => by cases ho) hg2 dialogue 0 fs
    unfold renderCombinedMulti
    simp [h1, h2]

/-- Witness for C6: a concrete two-line batch in which the backend and both
gTTS passes always raise ends in the batch-level error. -/
theorem claim_C6_empty_input_rejection_witness :
    renderCombinedMulti true (some (fun _ => .exc)) (fun _ => .exc) (fun _ => .exc)
      ["Rick: hi".data, "Morty: yo".data] "ep".data "out".data "07 oct_".data
      none [] [] = .error "TTS failed to produce any valid audio lines".data :=
  claim_C6_empty_input_rejection.2 true (fun _ => .exc) (fun _ => .exc) (fun _ => .exc)
    ["Rick: hi".data, "Morty: yo".data] "ep".data "out".data "07 oct_".data
    none [] [] (fun _ => rfl) (fun _ => rfl) (fun _ => rfl)

/-! ## Supporting lemmas for the ordinal claim -/

theorem isPrefixOf_append_self (l s : List Char) : l.isPrefixOf (l ++ s) = true := by
  rw [List.isPrefixOf_iff_prefix]
  exact List.prefix_append l s

theorem isSuffixOf_append_self (l s : List Char) : l.isSuffixOf (s ++ l) = true := by
  rw [List.isSuffixOf_iff_suffix]
  exact List.suffix_append s l

theorem containsSubB_middle (sub a b : List Char) (h : sub ≠ []) :
    containsSubB sub (a ++ (sub ++ b)) = true := by
  induction a with
  | nil =>
    cases sub with
    | nil => exact absurd rfl h
    | cons c t =>
      rw [List.nil_append, List.cons_append]
      simp only [containsSubB]
      rw [← List.cons_append, isPrefixOf_append_self]
      simp
  | cons x a ih =>
    rw [List.cons_append]
    simp only [containsSubB]
    rw [ih]
    simp

theorem matchesOrdinalScan_finalName (label safeTitle dateToken : List Char) (n : Nat) :
    matchesOrdinalScan label dateToken (finalName label safeTitle dateToken n) = true := by
  have hshape1 : finalName label safeTitle dateToken n
      = (label ++ "_".data) ++ (safeTitle ++ '_' :: (dateToken ++ pyOrdinal n ++ ".mp3".data)) := by
    simp [finalName]
  have hshape2 : finalName label safeTitle dateToken n
      = (label ++ '_' :: safeTitle) ++ (("_".data ++ dateToken) ++ (pyOrdinal n ++ ".mp3".data)) := by
    simp [finalName]
  have hshape3 : finalName label safeTitle dateToken n
      = (label ++ '_' :: (safeTitle ++ '_' :: (dateToken ++ pyOrdinal n))) ++ ".mp3".data := by
    simp [finalName]
  unfold matchesOrdinalScan
  rw [hshape3]
  rw [isSuffixOf_append_self]
  rw [← hshape3, hshape2]
  rw [containsSubB_middle _ _ _ (by simp)]
  rw [← hshape2, hshape1]
  rw [isPrefixOf_append_self]
  rfl

theorem nextOrdinalNum_cons_self (listing : List (List Char))
    (label safeTitle dateToken : List Char) (n : Nat) :
    nextOrdinalNum (finalName label safeTitle dateToken n :: listing) label dateToken
      = nextOrdinalNum listing label dateToken + 1 := by
  unfold nextOrdinalNum
  rw [List.filter_cons_of_pos (matchesOrdinalScan_finalName label safeTitle dateToken n)]
  simp

theorem finalName_ordinal_inj (label safeTitle dateToken : List Char) (m n : Nat)
    (h : finalName label safeTitle dateToken m = finalName label safeTitle dateToken n) :
    m = n := by
  unfold finalName at h
  have h1 := List.append_cancel_left h
  injection h1 with _ h2
  have h3 := List.append_cancel_left h2
  injection h3 with _ h4
  have h5 : dateToken ++ (pyOrdinal m ++ ".mp3".data)
      = dateToken ++ (pyOrdinal n ++ ".mp3".data) := by
    rw [← List.append_assoc, ← List.append_assoc]
    exact h4
  have h6 := List.append_cancel_left h5
  have h7 := List.append_cancel_right h6
  exact pyOrdinal_injective m n h7

/-- C2: for every output-directory listing, label, title and date token, the
ordinal is the count of listed names that start with `label_`, contain
`_dateToken` and end with `.mp3`, plus one (this is `nextOrdinalNum` by
definition), and rendering twice into the same directory — the second scan
seeing the file written by the first — yields ordinal numbers that increase by
exactly one and two distinct file names, so the re-run never overwrites the
previously rendered artifact. -/
theorem claim_C2_ordinal_monotonicity :
    ∀ (listing : List (List Char)) (label title dateToken : List Char),
      nextOrdinalNum (finalName label (sanitizeFilename title) dateToken
          (nextOrdinalNum listing label dateToken) :: listing) label dateToken
        = nextOrdinalNum listing label dateToken + 1 ∧
      finalName label (sanitizeFilename title) dateToken
          (nextOrdinalNum (finalName label (sanitizeFilename title) dateToken
            (nextOrdinalNum listing label dateToken) :: listing) label dateToken)
        ≠ finalName label (sanitizeFilename title) dateToken
            (nextOrdinalNum listing label dateToken) := by
  intro listing label title dateToken
  have hstep := nextOrdinalNum_cons_self listing label (sanitizeFilename title) dateToken
    (nextOrdinalNum listing label dateToken)
  refine ⟨hstep, ?_⟩
  intro heq
  have := finalName_ordinal_inj label (sanitizeFilename title) dateToken _ _ heq
  omega

/-- C1: order preservation fails in multi-track rendering.  On an 11-line
script spoken entirely by `rick`, `create_dialogue_audio` emits the per-line
files in input-index order `0, 1, ..., 10`, but `_group_line_files_by_speaker`
re-sorts each group with Python `sorted`, which is lexicographic on the file
name, so the combined `rick` artifact concatenates `rick_line_10.mp3` before
`rick_line_2.mp3` — not in increasing input-index order.  The first conjunct
records the input-order per-line files, the second evaluates the full
multi-track render at this failing input, and the third states that the
concatenation order differs from the input order. -/
theorem claim_C1_multitrack_order_bug :
    (createDialogueAudio false none (fun _ => SynthOutcome.ok ⟨2048, true⟩)
        ((List.range 11).map (fun _ => "Rick: hi".data)) "a/.tmp".data []).2
      = (List.range 11).map (fun i => pathJoin "a/.tmp".data (lineFileName "rick".data i)) ∧
    renderCombinedMulti false none (fun _ => SynthOutcome.ok ⟨2048, true⟩)
        (fun _ => SynthOutcome.ok ⟨2048, true⟩)
        ((List.range 11).map (fun _ => "Rick: hi".data)) "ep one".data "a".data
        "07 oct_".data none [] []
      = .ok [("a/rick_ep_one_07 oct_1st.mp3".data,
          ["a/.tmp/rick_line_0.mp3".data, "a/.tmp/rick_line_1.mp3".data,
            "a/.tmp/rick_line_10.mp3".data, "a/.tmp/rick_line_2.mp3".data,
            "a/.tmp/rick_line_3.mp3".data, "a/.tmp/rick_line_4.mp3".data,
            "a/.tmp/rick_line_5.mp3".data, "a/.tmp/rick_line_6.mp3".data,
            "a/.tmp/rick_line_7.mp3".data, "a/.tmp/rick_line_8.mp3".data,
            "a/.tmp/rick_line_9.mp3".data])] ∧
    (["a/.tmp/rick_line_0.mp3".data, "a/.tmp/rick_line_1.mp3".data,
        "a/.tmp/rick_line_10.mp3".data, "a/.tmp/rick_line_2.mp3".data,
        "a/.tmp/rick_line_3.mp3".data, "a/.tmp/rick_line_4.mp3".data,
        "a/.tmp/rick_line_5.mp3".data, "a/.tmp/rick_line_6.mp3".data,
        "a/.tmp/rick_line_7.mp3".data, "a/.tmp/rick_line_8.mp3".data,
        "a/.tmp/rick_line_9.mp3".data]
      == (List.range 11).map (fun i => pathJoin "a/.tmp".data (lineFileName "rick".data i)))
      = false :=
  ⟨by rfl, by rfl, by decide⟩

/-! ## Supporting lemmas for the prefix-handling claim -/

theorem splitFirstColon_append_colon (p rest : List Char) (h : ':' ∉ p) :
    splitFirstColon (p ++ ':' :: rest) = (p, some rest) := by
  induction p with
  | nil => simp [splitFirstColon]
  | cons c t ih =>
    have hc : ¬ (c = ':') := fun hcc => h (by simp [hcc])
    have ht : ':' ∉ t := fun hx => h (List.mem_cons_of_mem _ hx)
    simp [splitFirstColon, hc, ih ht]

theorem speakerOf_append_colon (p rest : List Char) (h : ':' ∉ p) :
    speakerOf (p ++ ':' :: rest) = recognizeSpeaker (toLowerL (trimL p)) := by
  unfold speakerOf
  have hcontains : (p ++ ':' :: rest).contains ':' = true := by simp
  rw [hcontains, if_pos rfl, splitFirstColon_append_colon p rest h]

theorem replaceGo_fuel (old new : List Char) :
    ∀ f g s, s.length ≤ f → s.length ≤ g → replaceGo old new f s = replaceGo old new g s := by
  intro f
  induction f with
  | zero =>
    intro g s h1 _
    have hs : s = [] := List.eq_nil_of_length_eq_zero (Nat.le_zero.mp h1)
    subst hs
    cases g <;> rfl
  | succ f ih =>
    intro g s h1 h2
    cases s with
    | nil => cases g <;> rfl
    | cons c t =>
      cases g with
      | zero => simp at h2
      | succ g =>
        simp only [replaceGo]
        by_cases hp : old.isPrefixOf (c :: t) = true
        · rw [if_pos hp, if_pos hp]
          have hd : (t.drop (old.length - 1)).length ≤ t.length := by
            simp [List.length_drop]
          simp only [List.length_cons] at h1 h2
          rw [ih g (t.drop (old.length - 1)) (by omega) (by omega)]
        · rw [if_neg hp, if_neg hp]
          simp only [List.length_cons] at h1 h2
          rw [ih g t (by omega) (by omega)]

theorem replaceL_append_self (old new s : List Char) (h : old ≠ []) :
    replaceL old new (old ++ s) = new ++ replaceL old new s := by
  cases old with
  | nil => exact absurd rfl h
  | cons o os =>
    unfold replaceL
    rw [if_neg (by simp), if_neg (by simp)]
    rw [List.cons_append, List.length_cons]
    simp only [replaceGo]
    rw [if_pos (by rw [← List.cons_append]; exact isPrefixOf_append_self (o :: os) s)]
    congr 1
    have hdrop : (os ++ s).drop ((o :: os).length - 1) = s := by
      simp only [List.length_cons, Nat.add_sub_cancel]
      exact List.drop_left os s
    rw [hdrop]
    exact replaceGo_fuel (o :: os) new _ _ s (by simp) (Nat.le_refl _)

theorem replaceGo_not_contains (old new : List Char) :
    ∀ fuel s, containsSubB old s = false → replaceGo old new fuel s = s := by
  intro fuel
  induction fuel with
  | zero => intro s _; cases s <;> rfl
  | succ f ih =>
    intro s h
    cases s with
    | nil => rfl
    | cons c t =>
      simp only [containsSubB, Bool.or_eq_false_iff] at h
      simp only [replaceGo]
      rw [if_neg (by simp [h.1]), ih t h.2]

theorem replaceL_not_contains (old new s : List Char) (h : containsSubB old s = false) :
    replaceL old new s = s := by
  unfold replaceL
  by_cases ho : old = []
  · rw [if_pos ho]
  · rw [if_neg ho]
    exact replaceGo_not_contains old new s.length s h

/-- The five exact-case prefix strings that `create_dialogue_audio` strips via
`str.replace`. -/
def prefixStrings : List (List Char) :=
  ["Rick: ".data, "Morty: ".data, "DJCARA: ".data, "DJ Cara: ".data, "Cara: ".data]

/-- C5 (amended): the speaker label is derived case-insensitively from the
recognized prefix set applied to the text before the first colon, an
unrecognized or absent prefix yields the generic `speaker` label, and the
exact-case prefix forms `Rick: `, `Morty: `, `DJCARA: `, `DJ Cara: `,
`Cara: ` are stripped from the text before synthesis (a recognized prefix
written in any other casing is left in the synthesized text — see the
counterexample); for the `rick` persona the inline `*burp*` marker is removed
by splitting on it and re-joining the fragments with single spaces. -/
theorem claim_C5_prefix_handling :
    (∀ (p rest : List Char), ':' ∉ p →
      speakerOf (p ++ ':' :: rest) = recognizeSpeaker (toLowerL (trimL p))) ∧
    (∀ line : List Char, line.contains ':' = false →
      speakerOf line = none ∧ characterOf line = "speaker".data) ∧
    (∀ line : List Char, speakerOf line = none → characterOf line = "speaker".data) ∧
    (∀ rest : List Char, (∀ q ∈ prefixStrings, containsSubB q rest = false) →
      speakerOf ("Rick: ".data ++ rest) = some "rick".data ∧
      cleanOf ("Rick: ".data ++ rest) (speakerOf ("Rick: ".data ++ rest))
        = List.intercalate " ".data (splitOnSubL "*burp*".data rest)) ∧
    (∀ rest : List Char, (∀ q ∈ prefixStrings, containsSubB q rest = false) →
      speakerOf ("Morty: ".data ++ rest) = some "morty".data ∧
      cleanOf ("Morty: ".data ++ rest) (speakerOf ("Morty: ".data ++ rest)) = rest) ∧
    (∀ rest : List Char, (∀ q ∈ prefixStrings, containsSubB q rest = false) →
      speakerOf ("DJCARA: ".data ++ rest) = some "djcara".data ∧
      cleanOf ("DJCARA: ".data ++ rest) (speakerOf ("DJCARA: ".data ++ rest)) = rest) ∧
    (∀ rest : List Char, (∀ q ∈ prefixStrings, containsSubB q rest = false) →
      speakerOf ("DJ Cara: ".data ++ rest) = some "djcara".data ∧
      cleanOf ("DJ Cara: ".data ++ rest) (speakerOf ("DJ Cara: ".data ++ rest)) = rest) ∧
    (∀ rest : List Char, (∀ q ∈ prefixStrings, containsSubB q rest = false) →
      speakerOf ("Cara: ".data ++ rest) = some "djcara".data ∧
      cleanOf ("Cara: ".data ++ rest) (speakerOf ("Cara: ".data ++ rest)) = rest) := by
  refine ⟨speakerOf_append_colon, ?_, ?_, ?_, ?_, ?_, ?_, ?_⟩
  · intro line h
    have hs : speakerOf line = none := by
      unfold speakerOf
      rw [h]
      rfl
    exact ⟨hs, by unfold characterOf; rw [hs]; rfl⟩
  · intro line h
    unfold characterOf
    rw [h]
    rfl
  · intro rest hno
    have hsp : speakerOf ("Rick: ".data ++ rest) = some "rick".data := by
      have hshape : "Rick: ".data ++ rest = "Rick".data ++ ':' :: (' ' :: rest) := rfl
      rw [hshape, speakerOf_append_colon "Rick".data (' ' :: rest) (by decide)]
      rfl
    refine ⟨hsp, ?_⟩
    rw [hsp]
    simp only [cleanOf]
    have e1 : replaceL "Rick: ".data [] ("Rick: ".data ++ rest) = rest := by
      rw [replaceL_append_self "Rick: ".data [] rest (by decide), List.nil_append]
      exact replaceL_not_contains _ _ _ (hno _ (by decide))
    rw [e1, replaceL_not_contains _ _ _ (hno "Morty: ".data (by decide)),
      replaceL_not_contains _ _ _ (hno "DJCARA: ".data (by decide)),
      replaceL_not_contains _ _ _ (hno "DJ Cara: ".data (by decide)),
      replaceL_not_contains _ _ _ (hno "Cara: ".data (by decide))]
    simp
  · intro rest hno
    have hsp : speakerOf ("Morty: ".data ++ rest) = some "morty".data := by
      have hshape : "Morty: ".data ++ rest = "Morty".data ++ ':' :: (' ' :: rest) := rfl
      rw [hshape, speakerOf_append_colon "Morty".data (' ' :: rest) (by decide)]
      rfl
    refine ⟨hsp, ?_⟩
    rw [hsp]
    simp only [cleanOf]
    have hstraddle : containsSubB "Rick: ".data ("Morty: ".data ++ rest) = false := by
      have hM : "Morty: ".data ++ rest = 'M' :: 'o' :: 'r' :: 't' :: 'y' :: ':' :: ' ' :: rest :=
        rfl
      rw [hM]
      simp [containsSubB, List.isPrefixOf, hno "Rick: ".data (by decide)]
    rw [replaceL_not_contains _ _ _ hstraddle]
    have e2 : replaceL "Morty: ".data [] ("Morty: ".data ++ rest) = rest := by
      rw [replaceL_append_self "Morty: ".data [] rest (by decide), List.nil_append]
      exact replaceL_not_contains _ _ _ (hno _ (by decide))
    rw [e2, replaceL_not_contains _ _ _ (hno "DJCARA: ".data (by decide)),
      replaceL_not_contains _ _ _ (hno "DJ Cara: ".data (by decide)),
      replaceL_not_contains _ _ _ (hno "Cara: ".data (by decide))]
    simp
  · intro rest hno
    have hsp : speakerOf ("DJCARA: ".data ++ rest) = some "djcara".data := by
      have hshape : "DJCARA: ".data ++ rest = "DJCARA".data ++ ':' :: (' ' :: rest) := rfl
      rw [hshape, speakerOf_append_colon "DJCARA".data (' ' :: rest) (by decide)]
      rfl
    refine ⟨hsp, ?_⟩
    rw [hsp]
    simp only [cleanOf]
    have hD : "DJCARA: ".data ++ rest
        = 'D' :: 'J' :: 'C' :: 'A' :: 'R' :: 'A' :: ':' :: ' ' :: rest := rfl
    have hsR : containsSubB "Rick: ".data ("DJCARA: ".data ++ rest) = false := by
      rw [hD]
      simp [containsSubB, List.isPrefixOf, hno "Rick: ".data (by decide)]
    have hsM : containsSubB "Morty: ".data ("DJCARA: ".data ++ rest) = false := by
      rw [hD]
      simp [containsSubB, List.isPrefixOf, hno "Morty: ".data (by decide)]
    rw [replaceL_not_contains _ _ _ hsR, replaceL_not_contains _ _ _ hsM]
    have e3 : replaceL "DJCARA: ".data [] ("DJCARA: ".data ++ rest) = rest := by
      rw [replaceL_append_self "DJCARA: ".data [] rest (by decide), List.nil_append]
      exact replaceL_not_contains _ _ _ (hno _ (by decide))
    rw [e3, replaceL_not_contains _ _ _ (hno "DJ Cara: ".data (by decide)),
      replaceL_not_contains _ _ _ (hno "Cara: ".data (by decide))]
    simp
  · intro rest hno
    have hsp : speakerOf ("DJ Cara: ".data ++ rest) = some "djcara".data := by
      have hshape : "DJ Cara: ".data ++ rest = "DJ Cara".data ++ ':' :: (' ' :: rest) := rfl
      rw [hshape, speakerOf_append_colon "DJ Cara".data (' ' :: rest) (by decide)]
      rfl
    refine ⟨hsp, ?_⟩
    rw [hsp]
    simp only [cleanOf]
    have hD : "DJ Cara: ".data ++ rest
        = 'D' :: 'J' :: ' ' :: 'C' :: 'a' :: 'r' :: 'a' :: ':' :: ' ' :: rest := rfl
    have hsR : containsSubB "Rick: ".data ("DJ Cara: ".data ++ rest) = false := by
      rw [hD]
      simp [containsSubB, List.isPrefixOf, hno "Rick: ".data (by decide)]
    have hsM : containsSubB "Morty: ".data ("DJ Cara: ".data ++ rest) = false := by
      rw [hD]
      simp [containsSubB, List.isPrefixOf, hno "Morty: ".data (by decide)]
    have hsDJ : containsSubB "DJCARA: ".data ("DJ Cara: ".data ++ rest) = false := by
      rw [hD]
      simp [containsSubB, List.isPrefixOf, hno "DJCARA: ".data (by decide)]
    rw [replaceL_not_contains _ _ _ hsR, replaceL_not_contains _ _ _ hsM,
      replaceL_not_contains _ _ _ hsDJ]
    have e4 : replaceL "DJ Cara: ".data [] ("DJ Cara: ".data ++ rest) = rest := by
      rw [replaceL_append_self "DJ Cara: ".data [] rest (by decide), List.nil_append]
      exact replaceL_not_contains _ _ _ (hno _ (by decide))
    rw [e4, replaceL_not_contains _ _ _ (hno "Cara: ".data (by decide))]
    simp
  · intro rest hno
    have hsp : speakerOf ("Cara: ".data ++ rest) = some "djcara".data := by
      have hshape : "Cara: ".data ++ rest = "Cara".data ++ ':' :: (' ' :: rest) := rfl
      rw [hshape, speakerOf_append_colon "Cara".data (' ' :: rest) (by decide)]
      rfl
    refine ⟨hsp, ?_⟩
    rw [hsp]
    simp only [cleanOf]
    have hC : "Cara: ".data ++ rest = 'C' :: 'a' :: 'r' :: 'a' :: ':' :: ' ' :: rest := rfl
    have hsR : containsSubB "Rick: ".data ("Cara: ".data ++ rest) = false := by
      rw [hC]
      simp [containsSubB, List.isPrefixOf, hno "Rick: ".data (by decide)]
    have hsM : containsSubB "Morty: ".data ("Cara: ".data ++ rest) = false := by
      rw [hC]
      simp [containsSubB, List.isPrefixOf, hno "Morty: ".data (by decide)]
    have hsDJ : containsSubB "DJCARA: ".data ("Cara: ".data ++ rest) = false := by
      rw [hC]
      simp [containsSubB, List.isPrefixOf, hno "DJCARA: ".data (by decide)]
    have hsDJ2 : containsSubB "DJ Cara: ".data ("Cara: ".data ++ rest) = false := by
      rw [hC]
      simp [containsSubB, List.isPrefixOf, hno "DJ Cara: ".data (by decide)]
    rw [replaceL_not_contains _ _ _ hsR, replaceL_not_contains _ _ _ hsM,
      replaceL_not_contains _ _ _ hsDJ, replaceL_not_contains _ _ _ hsDJ2]
    have e5 : replaceL "Cara: ".data [] ("Cara: ".data ++ rest) = rest := by
      rw [replaceL_append_self "Cara: ".data [] rest (by decide), List.nil_append]
      exact replaceL_not_contains _ _ _ (hno _ (by decide))
    rw [e5]
    simp

/-- Counterexample to C5 as stated: the line `rick: hi` is recognized
case-insensitively as the `rick` speaker, yet the cleaned text passed to
synthesis is the line unchanged — the lowercase prefix `rick:` is not
stripped, because the stripping only replaces the five exact-case forms. -/
theorem claim_C5_prefix_handling_cx :
    speakerOf "rick: hi".data = some "rick".data ∧
    cleanOf "rick: hi".data (speakerOf "rick: hi".data) = "rick: hi".data ∧
    containsSubB "rick:".data (cleanOf "rick: hi".data (speakerOf "rick: hi".data)) = true := by
  decide

/-- Witness for the amended C5 at concrete inputs: a canonical `Rick: ` line
is labeled `rick` and has the prefix stripped and the `*burp*` marker
space-joined, and a canonical `Cara: ` line is labeled `djcara` and has its
prefix stripped. -/
theorem claim_C5_prefix_handling_witness :
    (speakerOf ("Rick: ".data ++ "go *burp* now".data) = some "rick".data ∧
      cleanOf ("Rick: ".data ++ "go *burp* now".data)
          (speakerOf ("Rick: ".data ++ "go *burp* now".data))
        = List.intercalate " ".data (splitOnSubL "*burp*".data "go *burp* now".data)) ∧
    (speakerOf ("Cara: ".data ++ "hello fam".data) = some "djcara".data ∧
      cleanOf ("Cara: ".data ++ "hello fam".data)
          (speakerOf ("Cara: ".data ++ "hello fam".data))
        = "hello fam".data) :=
  ⟨claim_C5_prefix_handling.2.2.2.1 "go *burp* now".data (by decide),
    claim_C5_prefix_handling.2.2.2.2.2.2.2 "hello fam".data (by decide)⟩

/-! ## Supporting lemmas for the fallback-determinism claim -/

theorem append_ne_of_ne_suffix (a b s t : List Char) (hlen : s.length = t.length)
    (hne : s ≠ t) : a ++ s ≠ b ++ t :=
  fun h => hne (List.append_inj' h hlen).2

theorem decChars_length_one (i : Nat) (h : i < 10) : (decChars i).length = 1 := by
  simp [decChars, decDigits, decDigitsGo, h]

theorem pathJoin_lineFileName_shape (d c : List Char) (i : Nat) :
    pathJoin d (lineFileName c i)
      = (d ++ '/' :: c) ++ ("_line_".data ++ (decChars i ++ ".mp3".data)) := by
  simp [pathJoin, lineFileName, List.append_assoc, List.cons_append]

theorem pathJoin_lineFileName_ne (d c c' : List Char) (i j : Nat) (hi : i < 10)
    (hj : j < 10) (hij : i ≠ j) :
    pathJoin d (lineFileName c i) ≠ pathJoin d (lineFileName c' j) := by
  rw [pathJoin_lineFileName_shape, pathJoin_lineFileName_shape]
  apply append_ne_of_ne_suffix
  · simp [decChars_length_one i hi, decChars_length_one j hj]
  · intro h
    have h1 := List.append_cancel_left h
    have h2 := List.append_cancel_right h1
    exact hij (decChars_injective i j h2)

/-- The per-line file paths `create_dialogue_audio` returns for a dialogue
whose every line yields a valid artifact, starting at line index `i`. -/
def pathsFrom (dir : List Char) : Nat → List (List Char) → List (List Char)
  | _, [] => []
  | i, l :: ls => pathJoin dir (lineFileName (characterOf l) i) :: pathsFrom dir (i + 1) ls

/-- The file-system entries written when every line is synthesized by the
oracle whose per-text output attributes are `ff`, newest write first. -/
def synthWrites (ff : List Char → FileInfo) (dir : List Char) :
    Nat → List (List Char) → FS
  | _, [] => []
  | i, l :: ls =>
    synthWrites ff dir (i + 1) ls
      ++ [(pathJoin dir (lineFileName (characterOf l) i), ff (cleanOf l (speakerOf l)))]

theorem processLine_backend_ok (pydubAvail : Bool) (o g : List Char → SynthOutcome)
    (dir : List Char) (i : Nat) (line : List Char) (fs : FS) (bf : FileInfo)
    (hb : o (cleanOf line (speakerOf line)) = .ok bf)
    (hgood : goodFileB pydubAvail bf = true) :
    processLine pydubAvail (some o) g dir i line fs
      = ((pathJoin dir (lineFileName (characterOf line) i), bf) :: fs,
          some (pathJoin dir (lineFileName (characterOf line) i))) := by
  have hvalid : isValidMp3 pydubAvail
      ((pathJoin dir (lineFileName (characterOf line) i), bf) :: fs)
      (pathJoin dir (lineFileName (characterOf line) i)) = true := by
    rw [isValidMp3_eq_goodFileB _ _ _ bf (by simp [fsFind])]
    exact hgood
  simp only [processLine, characterOf] at hvalid ⊢
  rw [hb]
  simp [hvalid]

theorem processLine_fallback (pydubAvail : Bool) (o g : List Char → SynthOutcome)
    (dir : List Char) (i : Nat) (line : List Char) (fs : FS) (gf : FileInfo)
    (hb : o (cleanOf line (speakerOf line)) = .exc)
    (hg : g (cleanOf line (speakerOf line)) = .ok gf)
    (hgood : goodFileB pydubAvail gf = true) :
    processLine pydubAvail (some o) g dir i line fs
      = ((pathJoin dir (lineFileName (characterOf line) i), gf) :: fs,
          some (pathJoin dir (lineFileName (characterOf line) i))) := by
  have hvalid : isValidMp3 pydubAvail
      ((pathJoin dir (lineFileName (characterOf line) i), gf) :: fs)
      (pathJoin dir (lineFileName (characterOf line) i)) = true := by
    rw [isValidMp3_eq_goodFileB _ _ _ gf (by simp [fsFind])]
    exact hgood
  simp only [processLine, characterOf] at hvalid ⊢
  rw [hb, hg]
  simp [hvalid]

theorem createDialogueAudioGo_fallback (pydubAvail : Bool)
    (o g : List Char → SynthOutcome) (gf : List Char → FileInfo) (dir : List Char)
    (hb : ∀ t, o t = .exc) (hg : ∀ t, g t = .ok (gf t))
    (hgood : ∀ t, goodFileB pydubAvail (gf t) = true) :
    ∀ (lines : List (List Char)) (i : Nat) (fs : FS),
      createDialogueAudioGo pydubAvail (some o) g dir i lines fs
        = (synthWrites gf dir i lines ++ fs, pathsFrom dir i lines) := by
  intro lines
  induction lines with
  | nil => intro i fs; rfl
  | cons l ls ih =>
    intro i fs
    simp only [createDialogueAudioGo,
      processLine_fallback pydubAvail o g dir i l fs (gf (cleanOf l (speakerOf l)))
        (hb _) (hg _) (hgood _),
      ih (i + 1)]
    simp [synthWrites, pathsFrom, List.append_assoc]

theorem createDialogueAudioGo_backend_ok (pydubAvail : Bool)
    (o g : List Char → SynthOutcome) (bf : List Char → FileInfo) (dir : List Char)
    (hb : ∀ t, o t = .ok (bf t)) (hgood : ∀ t, goodFileB pydubAvail (bf t) = true) :
    ∀ (lines : List (List Char)) (i : Nat) (fs : FS),
      createDialogueAudioGo pydubAvail (some o) g dir i lines fs
        = (synthWrites bf dir i lines ++ fs, pathsFrom dir i lines) := by
  intro lines
  induction lines with
  | nil => intro i fs; rfl
  | cons l ls ih =>
    intro i fs
    simp only [createDialogueAudioGo,
      processLine_backend_ok pydubAvail o g dir i l fs (bf (cleanOf l (speakerOf l)))
        (hb _) (hgood _),
      ih (i + 1)]
    simp [synthWrites, pathsFrom, List.append_assoc]

/-- C3: with a primary backend whose synthesize always throws,
`create_dialogue_audio` over a 3-line script returns exactly the same list of
3 file names (`{speaker}_line_{i}.mp3` under the output directory, in input
order) as it would with a working backend, and the audio at each returned
path was produced by the gTTS fallback synthesizer (the file attributes at
each path are the fallback oracle's output for that line's cleaned text). -/
theorem claim_C3_fallback_determinism :
    ∀ (pydubAvail : Bool) (bOracle gOracle : List Char → SynthOutcome)
      (bFile gFile : List Char → FileInfo) (l0 l1 l2 dir : List Char) (fs : FS),
      (∀ t, bOracle t = .ok (bFile t)) →
      (∀ t, goodFileB pydubAvail (bFile t) = true) →
      (∀ t, gOracle t = .ok (gFile t)) →
      (∀ t, goodFileB pydubAvail (gFile t) = true) →
      (createDialogueAudio pydubAvail (some (fun _ => SynthOutcome.exc)) gOracle
          [l0, l1, l2] dir fs).2
        = (createDialogueAudio pydubAvail (some bOracle) gOracle [l0, l1, l2] dir fs).2 ∧
      (createDialogueAudio pydubAvail (some (fun _ => SynthOutcome.exc)) gOracle
          [l0, l1, l2] dir fs).2
        = [pathJoin dir (lineFileName (characterOf l0) 0),
            pathJoin dir (lineFileName (characterOf l1) 1),
            pathJoin dir (lineFileName (characterOf l2) 2)] ∧
      fsFind (createDialogueAudio pydubAvail (some (fun _ => SynthOutcome.exc)) gOracle
          [l0, l1, l2] dir fs).1 (pathJoin dir (lineFileName (characterOf l0) 0))
        = some (gFile (cleanOf l0 (speakerOf l0))) ∧
      fsFind (createDialogueAudio pydubAvail (some (fun _ => SynthOutcome.exc)) gOracle
          [l0, l1, l2] dir fs).1 (pathJoin dir (lineFileName (characterOf l1) 1))
        = some (gFile (cleanOf l1 (speakerOf l1))) ∧
      fsFind (createDialogueAudio pydubAvail (some (fun _ => SynthOutcome.exc)) gOracle
          [l0, l1, l2] dir fs).1 (pathJoin dir (lineFileName (characterOf l2) 2))
        = some (gFile (cleanOf l2 (speakerOf l2))) := by
  intro pydubAvail bOracle gOracle bFile gFile l0 l1 l2 dir fs hbO hbGood hgO hgGood
  have hfall := createDialogueAudioGo_fallback pydubAvail (fun _ => SynthOutcome.exc)
    gOracle gFile dir (fun _ => rfl) hgO hgGood [l0, l1, l2] 0 fs
  have hok := createDialogueAudioGo_backend_ok pydubAvail bOracle gOracle bFile dir
    hbO hbGood [l0, l1, l2] 0 fs
  have hne21 : pathJoin dir (lineFileName (characterOf l2) 2)
      ≠ pathJoin dir (lineFileName (characterOf l1) 1) :=
    pathJoin_lineFileName_ne dir _ _ 2 1 (by omega) (by omega) (by omega)
  have hne20 : pathJoin dir (lineFileName (characterOf l2) 2)
      ≠ pathJoin dir (lineFileName (characterOf l0) 0) :=
    pathJoin_lineFileName_ne dir _ _ 2 0 (by omega) (by omega) (by omega)
  have hne10 : pathJoin dir (lineFileName (characterOf l1) 1)
      ≠ pathJoin dir (lineFileName (characterOf l0) 0) :=
    pathJoin_lineFileName_ne dir _ _ 1 0 (by omega) (by omega) (by omega)
  unfold createDialogueAudio at hfall hok ⊢
  rw [hfall, hok]
  refine ⟨rfl, rfl, ?_, ?_, ?_⟩
  · simp [synthWrites, fsFind, hne21, hne20, hne10]
  · simp [synthWrites, fsFind, hne21, hne20, hne10]
  · simp [synthWrites, fsFind, hne21, hne20, hne10]

/-- Witness for C3: a concrete 3-line script with an always-throwing backend
and a working gTTS produces the three expected per-line names in input order. -/
theorem claim_C3_fallback_determinism_witness :
    (createDialogueAudio false (some (fun _ => SynthOutcome.exc))
        (fun _ => SynthOutcome.ok ⟨2048, true⟩)
        ["Rick: hi".data, "Morty: oh".data, "hello".data] "out".data []).2
      = (createDialogueAudio false (some (fun _ => SynthOutcome.ok ⟨4096, true⟩))
          (fun _ => SynthOutcome.ok ⟨2048, true⟩)
          ["Rick: hi".data, "Morty: oh".data, "hello".data] "out".data []).2 ∧
    (createDialogueAudio false (some (fun _ => SynthOutcome.exc))
        (fun _ => SynthOutcome.ok ⟨2048, true⟩)
        ["Rick: hi".data, "Morty: oh".data, "hello".data] "out".data []).2
      = [pathJoin "out".data (lineFileName (characterOf "Rick: hi".data) 0),
          pathJoin "out".data (lineFileName (characterOf "Morty: oh".data) 1),
          pathJoin "out".data (lineFileName (characterOf "hello".data) 2)] :=
  ⟨(claim_C3_fallback_determinism false (fun _ => SynthOutcome.ok ⟨4096, true⟩)
      (fun _ => SynthOutcome.ok ⟨2048, true⟩) (fun _ => ⟨4096, true⟩) (fun _ => ⟨2048, true⟩)
      "Rick: hi".data "Morty: oh".data "hello".data "out".data []
      (fun _ => rfl) (fun _ => rfl) (fun _ => rfl) (fun _ => rfl)).1,
    (claim_C3_fallback_determinism false (fun _ => SynthOutcome.ok ⟨4096, true⟩)
      (fun _ => SynthOutcome.ok ⟨2048, true⟩) (fun _ => ⟨4096, true⟩) (fun _ => ⟨2048, true⟩)
      "Rick: hi".data "Morty: oh".data "hello".data "out".data []
      (fun _ => rfl) (fun _ => rfl) (fun _ => rfl) (fun _ => rfl)).2.1⟩

/-! ## Supporting lemmas for the speaker-partition claim -/

theorem dictAppend_flatten_perm (gs : List (List Char × List (List Char)))
    (k v : List Char) :
    (((dictAppend gs k v).map (fun kv => kv.2)).flatten).Perm
      (((gs.map (fun kv => kv.2)).flatten) ++ [v]) := by
  induction gs with
  | nil => simp [dictAppend]
  | cons hd t ih =>
    obtain ⟨k', vs⟩ := hd
    by_cases hk : k' = k
    · simp only [dictAppend, if_pos hk, List.map_cons, List.flatten_cons]
      rw [List.append_assoc, List.append_assoc]
      exact List.Perm.append_left vs List.perm_append_comm
    · simp only [dictAppend, if_neg hk, List.map_cons, List.flatten_cons]
      rw [List.append_assoc]
      exact List.Perm.append_left vs ih

theorem foldl_dictAppend_flatten_perm (d : Option (List Char)) :
    ∀ (files : List (List Char)) (gs : List (List Char × List (List Char))),
      (((files.foldl (fun gs fp => dictAppend gs (speakerKeyOf d fp) fp) gs)).map
          (fun kv => kv.2)).flatten.Perm
        (((gs.map (fun kv => kv.2)).flatten) ++ files) := by
  intro files
  induction files with
  | nil => intro gs; simp
  | cons fp t ih =>
    intro gs
    simp only [List.foldl_cons]
    have step := dictAppend_flatten_perm gs (speakerKeyOf d fp) fp
    have htrans := (ih (dictAppend gs (speakerKeyOf d fp) fp)).trans
      (step.append_right t)
    have hshape : (((gs.map (fun kv => kv.2)).flatten) ++ [fp]) ++ t
        = ((gs.map (fun kv => kv.2)).flatten) ++ fp :: t := by
      rw [List.append_assoc]
      rfl
    rw [hshape] at htrans
    exact htrans

theorem flatten_map_sort_perm (gs : List (List Char × List (List Char))) :
    ((gs.map (fun kv => sortNames kv.2)).flatten).Perm
      ((gs.map (fun kv => kv.2)).flatten) := by
  induction gs with
  | nil => simp
  | cons hd t ih =>
    simp only [List.map_cons, List.flatten_cons]
    exact (List.perm_insertionSort _ hd.2).append ih

theorem dictAppend_value_key (d : Option (List Char))
    (gs : List (List Char × List (List Char))) (k fp : List Char)
    (hgs : ∀ kv ∈ gs, ∀ x ∈ kv.2, speakerKeyOf d x = kv.1)
    (hk : speakerKeyOf d fp = k) :
    ∀ kv ∈ dictAppend gs k fp, ∀ x ∈ kv.2, speakerKeyOf d x = kv.1 := by
  induction gs with
  | nil =>
    intro kv hkv x hx
    simp [dictAppend] at hkv
    subst hkv
    simp at hx
    subst hx
    exact hk
  | cons hd t ih =>
    obtain ⟨k', vs⟩ := hd
    intro kv hkv x hx
    by_cases hkk : k' = k
    · simp only [dictAppend, if_pos hkk] at hkv
      rcases List.mem_cons.mp hkv with h | h
      · subst h
        simp only at hx
        rcases List.mem_append.mp hx with h | h
        · exact hgs (k', vs) (List.mem_cons_self _ _) x h
        · simp at h
          subst h
          rw [hk, hkk]
      · exact hgs kv (List.mem_cons_of_mem _ h) x hx
    · simp only [dictAppend, if_neg hkk] at hkv
      rcases List.mem_cons.mp hkv with h | h
      · subst h
        exact hgs (k', vs) (List.mem_cons_self _ _) x hx
      · exact ih (fun kv hkv => hgs kv (List.mem_cons_of_mem _ hkv)) kv h x hx

theorem foldl_dictAppend_value_key (d : Option (List Char)) :
    ∀ (files : List (List Char)) (gs : List (List Char × List (List Char))),
      (∀ kv ∈ gs, ∀ x ∈ kv.2, speakerKeyOf d x = kv.1) →
      ∀ kv ∈ files.foldl (fun gs fp => dictAppend gs (speakerKeyOf d fp) fp) gs,
        ∀ x ∈ kv.2, speakerKeyOf d x = kv.1 := by
  intro files
  induction files with
  | nil => intro gs hgs; exact hgs
  | cons fp t ih =>
    intro gs hgs
    simp only [List.foldl_cons]
    exact ih (dictAppend gs (speakerKeyOf d fp) fp)
      (dictAppend_value_key d gs (speakerKeyOf d fp) fp hgs rfl)

theorem dictAppend_keys (P : List Char → Prop)
    (gs : List (List Char × List (List Char))) (k fp : List Char)
    (hgs : ∀ kv ∈ gs, P kv.1) (hk : P k) :
    ∀ kv ∈ dictAppend gs k fp, P kv.1 := by
  induction gs with
  | nil =>
    intro kv hkv
    simp [dictAppend] at hkv
    subst hkv
    exact hk
  | cons hd t ih =>
    obtain ⟨k', vs⟩ := hd
    intro kv hkv
    by_cases hkk : k' = k
    · simp only [dictAppend, if_pos hkk] at hkv
      rcases List.mem_cons.mp hkv with h | h
      · subst h; exact hgs (k', vs) (List.mem_cons_self _ _)
      · exact hgs kv (List.mem_cons_of_mem _ h)
    · simp only [dictAppend, if_neg hkk] at hkv
      rcases List.mem_cons.mp hkv with h | h
      · subst h; exact hgs (k', vs) (List.mem_cons_self _ _)
      · exact ih (fun kv hkv => hgs kv (List.mem_cons_of_mem _ hkv)) kv h

theorem foldl_dictAppend_keys (d : Option (List Char)) (P : List Char → Prop)
    (hP : ∀ fp, P (speakerKeyOf d fp)) :
    ∀ (files : List (List Char)) (gs : List (List Char × List (List Char))),
      (∀ kv ∈ gs, P kv.1) →
      ∀ kv ∈ files.foldl (fun gs fp => dictAppend gs (speakerKeyOf d fp) fp) gs, P kv.1 := by
  intro files
  induction files with
  | nil => intro gs hgs; exact hgs
  | cons fp t ih =>
    intro gs hgs
    simp only [List.foldl_cons]
    exact ih (dictAppend gs (speakerKeyOf d fp) fp)
      (dictAppend_keys P gs (speakerKeyOf d fp) fp hgs (hP fp))

theorem speakerKeyOf_range (d : Option (List Char)) (fp : List Char) :
    speakerKeyOf d fp = "rick".data ∨ speakerKeyOf d fp = "morty".data ∨
      speakerKeyOf d fp = defaultKeyOf d := by
  unfold speakerKeyOf
  by_cases h1 : "rick_".data.isPrefixOf (basenameL fp) = true
  · rw [if_pos h1]; exact Or.inl rfl
  · rw [if_neg h1]
    by_cases h2 : "morty_".data.isPrefixOf (basenameL fp) = true
    · rw [if_pos h2]; exact Or.inr (Or.inl rfl)
    · rw [if_neg h2]; exact Or.inr (Or.inr rfl)

/-- C10: `_group_line_files_by_speaker` is a partition with at most the two
named groups plus one default bucket: the concatenation of all group contents
is a permutation of the input files (every file lands in exactly one group),
every file in a group has that group's key, group keys are only `rick`,
`morty` or the lowercased default label (`speaker` when none is supplied), and
a file whose basename starts with `djcara_` is bucketed under the default
label, not a `djcara` group. -/
theorem claim_C10_speaker_grouping_partition :
    ∀ (files : List (List Char)) (d : Option (List Char)),
      (((groupLineFilesBySpeaker files d).map (fun kv => kv.2)).flatten).Perm files ∧
      (∀ kv ∈ groupLineFilesBySpeaker files d, ∀ fp ∈ kv.2,
        speakerKeyOf d fp = kv.1 ∧ fp ∈ files) ∧
      (∀ kv ∈ groupLineFilesBySpeaker files d,
        kv.1 = "rick".data ∨ kv.1 = "morty".data ∨ kv.1 = defaultKeyOf d) ∧
      (∀ fp : List Char, "djcara_".data.isPrefixOf (basenameL fp) = true →
        speakerKeyOf d fp = defaultKeyOf d) := by
  intro files d
  have hmapped : groupLineFilesBySpeaker files d
      = (files.foldl (fun gs fp => dictAppend gs (speakerKeyOf d fp) fp) []).map
          (fun kv => (kv.1, sortNames kv.2)) := rfl
  have hGperm : (((files.foldl (fun gs fp => dictAppend gs (speakerKeyOf d fp) fp)
      []).map (fun kv => kv.2)).flatten).Perm files := by
    have h := foldl_dictAppend_flatten_perm d files []
    simpa using h
  have hperm : (((groupLineFilesBySpeaker files d).map (fun kv => kv.2)).flatten).Perm
      files := by
    rw [hmapped]
    have h1 : (((files.foldl (fun gs fp => dictAppend gs (speakerKeyOf d fp) fp)
        []).map (fun kv => (kv.1, sortNames kv.2))).map (fun kv => kv.2))
        = (files.foldl (fun gs fp => dictAppend gs (speakerKeyOf d fp) fp) []).map
            (fun kv => sortNames kv.2) := by
      rw [List.map_map]
      rfl
    rw [h1]
    exact (flatten_map_sort_perm _).trans hGperm
  have hval := foldl_dictAppend_value_key d files []
    (fun kv hkv => absurd hkv (List.not_mem_nil kv))
  refine ⟨hperm, ?_, ?_, ?_⟩
  · intro kv hkv fp hfp
    rw [hmapped] at hkv
    obtain ⟨kv₀, hkv₀, hkveq⟩ := List.mem_map.mp hkv
    subst hkveq
    have hfp₀ : fp ∈ kv₀.2 := (List.perm_insertionSort _ kv₀.2).mem_iff.mp hfp
    refine ⟨hval kv₀ hkv₀ fp hfp₀, ?_⟩
    have hmem : fp ∈ ((files.foldl (fun gs fp => dictAppend gs (speakerKeyOf d fp) fp)
        []).map (fun kv => kv.2)).flatten :=
      List.mem_flatten.mpr ⟨kv₀.2, List.mem_map_of_mem _ hkv₀, hfp₀⟩
    exact hGperm.mem_iff.mp hmem
  · intro kv hkv
    rw [hmapped] at hkv
    obtain ⟨kv₀, hkv₀, hkveq⟩ := List.mem_map.mp hkv
    subst hkveq
    exact foldl_dictAppend_keys d
      (fun k => k = "rick".data ∨ k = "morty".data ∨ k = defaultKeyOf d)
      (speakerKeyOf_range d) files []
      (fun kv hkv => absurd hkv (List.not_mem_nil kv)) kv₀ hkv₀
  · intro fp h
    have hdj : "djcara_".data <+: basenameL fp := List.isPrefixOf_iff_prefix.mp h
    unfold speakerKeyOf
    have hr : ¬ ("rick_".data.isPrefixOf (basenameL fp) = true) := by
      intro hb
      rcases List.prefix_or_prefix_of_prefix (List.isPrefixOf_iff_prefix.mp hb) hdj with
        hc | hc
      · exact absurd hc (by decide)
      · exact absurd hc (by decide)
    have hm : ¬ ("morty_".data.isPrefixOf (basenameL fp) = true) := by
      intro hb
      rcases List.prefix_or_prefix_of_prefix (List.isPrefixOf_iff_prefix.mp hb) hdj with
        hc | hc
      · exact absurd hc (by decide)
      · exact absurd hc (by decide)
    rw [if_neg hr, if_neg hm]

/-- Witness for C10 at a concrete mixed file list: the three buckets and the
`djcara_` default routing come out as the theorem states. -/
theorem claim_C10_speaker_grouping_partition_witness :
    (((groupLineFilesBySpeaker
        ["t/rick_line_0.mp3".data, "t/djcara_line_1.mp3".data, "t/morty_line_2.mp3".data]
        none).map (fun kv => kv.2)).flatten).Perm
      ["t/rick_line_0.mp3".data, "t/djcara_line_1.mp3".data, "t/morty_line_2.mp3".data] ∧
    speakerKeyOf none "t/djcara_line_1.mp3".data = defaultKeyOf none :=
  ⟨(claim_C10_speaker_grouping_partition
      ["t/rick_line_0.mp3".data, "t/djcara_line_1.mp3".data, "t/morty_line_2.mp3".data]
      none).1,
    (claim_C10_speaker_grouping_partition [] none).2.2.2 "t/djcara_line_1.mp3".data
      (by decide)⟩

/-- Witness for C2 at a concrete label, title, date and an empty starting
listing: the second render's ordinal is 2 and the two names differ. -/
theorem claim_C2_ordinal_monotonicity_witness :
    nextOrdinalNum [finalName "rick".data (sanitizeFilename "Ep One".data) "07 oct_".data
        (nextOrdinalNum [] "rick".data "07 oct_".data)] "rick".data "07 oct_".data
      = nextOrdinalNum [] "rick".data "07 oct_".data + 1 ∧
    finalName "rick".data (sanitizeFilename "Ep One".data) "07 oct_".data
        (nextOrdinalNum [finalName "rick".data (sanitizeFilename "Ep One".data)
          "07 oct_".data (nextOrdinalNum [] "rick".data "07 oct_".data)]
          "rick".data "07 oct_".data)
      ≠ finalName "rick".data (sanitizeFilename "Ep One".data) "07 oct_".data
          (nextOrdinalNum [] "rick".data "07 oct_".data) :=
  claim_C2_ordinal_monotonicity [] "rick".data "Ep One".data "07 oct_".data
